import Mathlib

/-!
Verification of the browser-side streaming/upload logic of the
Drone-surveillance dashboard.

The development shallowly embeds the TypeScript source:

* `VideoStreamingDetection` (the newline-delimited-JSON stream consumer):
  its chunk/line buffering loop, its per-record dispatch, and the React
  state it mutates.  React `useState` state is modelled as an explicit
  `CompState` record; a `setX(v)` call becomes a functional update of that
  record.  The `processStream` closure created inside
  `startStreamingDetection` captures the `metadata` binding of the render
  in which the handler was created; `setMetadata` updates the committed
  state but never that captured binding, so the capture is modelled as an
  explicit `metadata0 : Option Json` parameter that stays fixed for a run.
* `VideoAnalysisPage.handleFileUpload` (upload flow).
* The detection normalisation of `processUploadedVideo`.
* The alert panel's acknowledge action.

JavaScript numbers are modelled as `ℚ` (all arithmetic the claims evaluate
is exact in both); parsed JSON objects are association lists of key/value
pairs (`Json`), with field access `jget` returning the last binding for a
key, as `JSON.parse` keeps the last duplicate key.  `JSON.parse` itself is
modelled by `parseJsonFlat`, a parser for the flat-object subset the
stream dispatch inspects (string and plain decimal number values, no
escape sequences, no interstitial whitespace); a JSON text outside that
subset is out of scope of the line-level theorems.
-/

/-- A parsed JSON value (the shapes the dashboard's records use). -/
inductive JValue where
  | null : JValue
  | bool : Bool → JValue
  | str : String → JValue
  | num : ℚ → JValue
  | arr : List JValue → JValue
  | obj : List (String × JValue) → JValue
deriving Repr

/-- A parsed JSON object, as produced by `JSON.parse` on a record line. -/
abbrev Json := List (String × JValue)

/-- Field access `data.k`: `JSON.parse` keeps the last duplicate key, so the
last binding wins. -/
def jget (r : Json) (k : String) : Option JValue :=
  (r.reverse.find? (fun p => p.1 == k)).map (fun p => p.2)

/-- Read `data.k` when a string is expected (`none` if absent or not a
string). -/
def jstr (r : Json) (k : String) : Option String :=
  match jget r k with
  | some (JValue.str s) => some s
  | _ => none

/-- Read `data.k` when a number is expected (`none` if absent or not a
number). -/
def jnum (r : Json) (k : String) : Option ℚ :=
  match jget r k with
  | some (JValue.num q) => some q
  | _ => none

/-- JavaScript truthiness of an (optional) field value: `undefined`, `null`,
`false`, `""` and `0` are falsy, everything else truthy. -/
def jsTruthy : Option JValue → Bool
  | none => false
  | some JValue.null => false
  | some (JValue.bool b) => b
  | some (JValue.str s) => s != ""
  | some (JValue.num q) => q != 0
  | some (JValue.arr _) => true
  | some (JValue.obj _) => true

/-- The test `data.type === t`: true exactly when the `type` field is the
string `t`. -/
def hasType (r : Json) (t : String) : Bool :=
  match jget r "type" with
  | some (JValue.str s) => s == t
  | _ => false

/-- The React state of `VideoStreamingDetection` (part_005 lines 55-60):
`isProcessing`, `metadata`, `currentFrame`, `allFrames`, `error`,
`progress`, with the `useState` initial values in `initialCompState`. -/
structure CompState where
  isProcessing : Bool
  metadata : Option Json
  currentFrame : Option Json
  allFrames : List Json
  error : Option JValue
  progress : ℚ
deriving Repr

/-- The `useState` initial values of the component. -/
def initialCompState : CompState :=
  { isProcessing := false, metadata := none, currentFrame := none,
    allFrames := [], error := none, progress := 0 }

/-- The state resets at the top of `startStreamingDetection`
(part_005 lines 67-71): `setIsProcessing(true)`, `setError(null)`,
`setAllFrames([])`, `setCurrentFrame(null)`, `setProgress(0)`.
`metadata` is not reset. -/
def startReset (s : CompState) : CompState :=
  { s with isProcessing := true, error := none, allFrames := [],
           currentFrame := none, progress := 0 }

/-- The per-record dispatch of `processStream` (part_005 lines 119-138).
`metadata0` is the `metadata` binding captured by the closure when
`startStreamingDetection` was created; the `if (metadata)` progress guard
and `metadata.frame_count` read this capture, not the committed state.
Absent numeric fields are modelled with default `0` (in JavaScript the
division would produce `NaN`; no theorem below evaluates that case). -/
def processRecord (metadata0 : Option Json) (s : CompState) (data : Json) :
    CompState :=
  if hasType data "metadata" then
    { s with metadata := some data }
  else if hasType data "frame_result" then
    let s1 := { s with currentFrame := some data,
                       allFrames := s.allFrames ++ [data] }
    match metadata0 with
    | some m =>
        { s1 with progress :=
            (jnum data "frame_number").getD 0 / (jnum m "frame_count").getD 0
              * 100 }
    | none => s1
  else if hasType data "complete" then
    { s with isProcessing := false, progress := 100 }
  else if jsTruthy (jget data "error") then
    { s with error := jget data "error", isProcessing := false }
  else
    s

/-- The dispatch loop over a sequence of successfully parsed records, in
arrival order. -/
def processRecords (metadata0 : Option Json) (s : CompState)
    (rs : List Json) : CompState :=
  rs.foldl (processRecord metadata0) s

/-- One `startStreamingDetection` run at record granularity: the committed
`metadata` at invocation time is what the run's closure captures, then the
state is reset and the parsed records are dispatched in order. -/
def runRecords (s : CompState) (rs : List Json) : CompState :=
  processRecords s.metadata (startReset s) rs

/-- A record handled by the `data.error` branch: its `type` is none of the
three recognised values and its `error` field is truthy. -/
def isErrorRecord (r : Json) : Bool :=
  !hasType r "metadata" && !hasType r "frame_result" &&
    !hasType r "complete" && jsTruthy (jget r "error")

/-- A record whose `type` is one of the three recognised discriminators. -/
def recognizedType (r : Json) : Bool :=
  hasType r "metadata" || hasType r "frame_result" || hasType r "complete"

/-- A metadata record as in the spec's chunk-reassembly example. -/
def mdRec : Json := [("type", JValue.str "metadata"), ("fps", JValue.num 30),
  ("frame_count", JValue.num 100)]

/-- A frame-result record with `frame_number` 10. -/
def frRec : Json := [("type", JValue.str "frame_result"),
  ("frame_number", JValue.num 10), ("timestamp", JValue.num 2),
  ("detections", JValue.arr []), ("classifications", JValue.arr [])]

/-- A stream error record. -/
def errRec1 : Json := [("error", JValue.str "boom")]

/-- A second, later stream error record. -/
def errRec2 : Json := [("error", JValue.str "late")]

/-- A completion record. -/
def completeRec : Json := [("type", JValue.str "complete")]

/-! ### The line-level model: `JSON.parse`, newline splitting, buffering -/

/-- The opening-brace character. -/
def lbrace : Char := Char.ofNat 123

/-- The closing-brace character. -/
def rbrace : Char := Char.ofNat 125

/-- Scan a JSON string literal body up to its closing quote (the model
supports no escape sequences). -/
def takeUntilQuote : List Char → Option (List Char × List Char)
  | [] => none
  | c :: cs =>
    if c = '"' then some ([], cs)
    else
      match takeUntilQuote cs with
      | some (s, r) => some (c :: s, r)
      | none => none

/-- Numeric value of a digit run. -/
def digitsVal (ds : List Char) : Nat :=
  ds.foldl (fun a c => a * 10 + (c.toNat - 48)) 0

/-- Parse an unsigned decimal number (integer part, optional fraction). -/
def parseNumAux (cs : List Char) : Option (ℚ × List Char) :=
  let p := cs.span Char.isDigit
  if p.1.isEmpty then none
  else
    match p.2 with
    | '.' :: cs3 =>
      let f := cs3.span Char.isDigit
      if f.1.isEmpty then none
      else some (((digitsVal p.1 : ℚ) +
                   (digitsVal f.1 : ℚ) / (10 : ℚ) ^ f.1.length), f.2)
    | _ => some ((digitsVal p.1 : ℚ), p.2)

/-- Parse a decimal number with optional leading minus sign. -/
def parseNumber : List Char → Option (ℚ × List Char)
  | '-' :: cs => (parseNumAux cs).map (fun p => (-p.1, p.2))
  | cs => parseNumAux cs

/-- Parse a member value: a string literal or a number (the value shapes
the stream dispatch inspects). -/
def parseValue (cs : List Char) : Option (JValue × List Char) :=
  match cs with
  | '"' :: rest =>
    (takeUntilQuote rest).map (fun p => (JValue.str (String.mk p.1), p.2))
  | _ => (parseNumber cs).map (fun p => (JValue.num p.1, p.2))

/-- Parse the members of an object after the opening brace, consuming the
closing brace.  The fuel argument bounds recursion depth; each recursive
call consumes at least one character, so `length + 1` fuel suffices. -/
def parseMembers : Nat → List Char → Option (Json × List Char)
  | 0, _ => none
  | Nat.succ fuel, cs =>
    match cs with
    | '"' :: cs1 =>
      match takeUntilQuote cs1 with
      | some (k, cs2) =>
        match cs2 with
        | ':' :: cs3 =>
          match parseValue cs3 with
          | some (v, cs4) =>
            match cs4 with
            | c :: cs5 =>
              if c = ',' then
                match parseMembers fuel cs5 with
                | some (ms, cs6) => some ((String.mk k, v) :: ms, cs6)
                | none => none
              else if c = rbrace then some ([(String.mk k, v)], cs5)
              else none
            | [] => none
          | none => none
        | _ => none
      | none => none
    | _ => none

/-- Model of `JSON.parse` on one stream line, restricted to the flat-object
subset the dashboard's records use: an object whose values are string
literals or plain decimal numbers, with no whitespace and no escapes.
Lines outside this subset are out of scope of the line-level theorems. -/
def parseJsonFlat (cs : List Char) : Option Json :=
  match cs with
  | [] => none
  | c :: cs1 =>
    if c = lbrace then
      match cs1 with
      | c2 :: cs2 =>
        if c2 = rbrace then (if cs2.isEmpty then some [] else none)
        else
          match parseMembers (cs1.length + 1) cs1 with
          | some (ms, rest) => if rest.isEmpty then some ms else none
          | none => none
      | [] => none
    else none

/-- The guard testing that a trimmed line is empty: the line consists only
of whitespace. -/
def isBlank (line : List Char) : Bool :=
  line.all Char.isWhitespace

/-- One iteration of the `for (const line of lines)` body
(part_005 lines 113-142): blank lines are skipped, a line that fails to
parse is logged and skipped (state unchanged), a parsed record goes
through the dispatch. -/
def processLine (metadata0 : Option Json) (s : CompState)
    (line : List Char) : CompState :=
  if isBlank line then s
  else
    match parseJsonFlat line with
    | some data => processRecord metadata0 s data
    | none => s

/-- The line loop over a list of complete lines. -/
def processLines (metadata0 : Option Json) (s : CompState)
    (lines : List (List Char)) : CompState :=
  lines.foldl (processLine metadata0) s

/-- Model of the JavaScript newline split of the buffer: split a character
sequence at newlines.  Like the
JavaScript `split`, the result is never empty and has one more part than
there are newlines. -/
def splitNl : List Char → List (List Char)
  | [] => [[]]
  | c :: cs =>
    if c = '\n' then [] :: splitNl cs
    else
      match splitNl cs with
      | [] => [[c]]
      | l :: ls => (c :: l) :: ls

/-- One `reader.read()` iteration of `processStream`, tracking only the
buffer and the emitted complete lines (part_005 lines 107-111):
the chunk is appended to the buffer, the buffer is split at newlines, the
last (possibly incomplete) part becomes the new buffer and the other parts
are the complete lines handed to the line loop. -/
def feedChunk (st : List Char × List (List Char)) (chunk : List Char) :
    List Char × List (List Char) :=
  let parts := splitNl (st.1 ++ chunk)
  (parts.getLastD [], st.2 ++ parts.dropLast)

/-- All complete lines emitted by the buffering loop over a chunk
sequence, in order. -/
def emittedLines (chunks : List (List Char)) : List (List Char) :=
  (chunks.foldl feedChunk ([], [])).2

/-- One `reader.read()` iteration of `processStream` with its line loop
inlined, exactly as in the source: state is the pending buffer plus the
component state. -/
def streamChunkStep (metadata0 : Option Json)
    (st : List Char × CompState) (chunk : List Char) :
    List Char × CompState :=
  let parts := splitNl (st.1 ++ chunk)
  (parts.getLastD [], parts.dropLast.foldl (processLine metadata0) st.2)

/-- The whole `processStream` loop over the sequence of network chunks:
start from an empty buffer, feed each chunk, process each complete line. -/
def processStream (metadata0 : Option Json) (s : CompState)
    (chunks : List (List Char)) : CompState :=
  (chunks.foldl (streamChunkStep metadata0) ([], s)).2

/-- One `startStreamingDetection` run at chunk granularity: capture the
committed `metadata`, reset the state, run the stream loop. -/
def runStream (s : CompState) (chunks : List (List Char)) : CompState :=
  processStream s.metadata (startReset s) chunks

/-- The spec's first example chunk, `{"type":"meta`. -/
def exChunk1 : List Char := "\x7b\"type\":\"meta".data

/-- The spec's second example chunk, `data","fps":30}` plus newline. -/
def exChunk2 : List Char := "data\",\"fps\":30\x7d\n".data

/-- The reassembled example line `{"type":"metadata","fps":30}`. -/
def exLine : List Char := "\x7b\"type\":\"metadata\",\"fps\":30\x7d".data

/-- Newline splitting as a pair: the complete (newline-terminated) parts,
and the trailing part after the last newline. -/
def splitParts : List Char → List (List Char) × List Char
  | [] => ([], [])
  | c :: cs =>
    let r := splitParts cs
    if c = '\n' then ([] :: r.1, r.2)
    else
      match r.1 with
      | [] => ([], c :: r.2)
      | p :: ps => ((c :: p) :: ps, r.2)

theorem splitNl_eq_splitParts (s : List Char) :
    splitNl s = (splitParts s).1 ++ [(splitParts s).2] := by
  induction s with
  | nil => rfl
  | cons c cs ih =>
    by_cases hc : c = '\n'
    · simp [splitNl, splitParts, hc, ih]
    · cases h1 : (splitParts cs).1 with
      | nil => simp [splitNl, splitParts, hc, ih, h1]
      | cons p ps => simp [splitNl, splitParts, hc, ih, h1]

theorem dropLast_splitNl (s : List Char) :
    (splitNl s).dropLast = (splitParts s).1 := by
  rw [splitNl_eq_splitParts, List.dropLast_concat]

theorem getLastD_splitNl (s : List Char) :
    (splitNl s).getLastD [] = (splitParts s).2 := by
  rw [splitNl_eq_splitParts, List.getLastD_concat]

theorem getLast?_getD_splitNl (s : List Char) :
    (splitNl s).getLast?.getD [] = (splitParts s).2 := by
  rw [← List.getLastD_eq_getLast?]
  exact getLastD_splitNl s

/-- The trailing part after the last newline contains no newline. -/
theorem splitParts_snd_no_nl (s : List Char) : '\n' ∉ (splitParts s).2 := by
  induction s with
  | nil => simp [splitParts]
  | cons c cs ih =>
    by_cases hc : c = '\n'
    · simpa [splitParts, hc] using ih
    · cases h1 : (splitParts cs).1 with
      | nil =>
        simp only [splitParts, if_neg hc, h1, List.mem_cons]
        rintro (h | h)
        · exact hc h.symm
        · exact ih h
      | cons p ps => simpa [splitParts, hc, h1] using ih

/-- A newline-free text is a single trailing part. -/
theorem splitParts_of_no_nl (s : List Char) (h : '\n' ∉ s) :
    splitParts s = ([], s) := by
  induction s with
  | nil => rfl
  | cons c cs ih =>
    have hc : c ≠ '\n' := fun hcc => h (hcc ▸ List.mem_cons_self c cs)
    have hcs : '\n' ∉ cs := fun hm => h (List.mem_cons_of_mem c hm)
    simp [splitParts, hc, ih hcs]

/-- Splitting a concatenation: the complete parts of `a ++ b` are the
complete parts of `a` followed by the parts obtained by continuing `a`'s
trailing part into `b`; the trailing part continues likewise. -/
theorem splitParts_append (a b : List Char) :
    splitParts (a ++ b)
      = ((splitParts a).1 ++ (splitParts ((splitParts a).2 ++ b)).1,
         (splitParts ((splitParts a).2 ++ b)).2) := by
  induction a with
  | nil => simp [splitParts]
  | cons c cs ih =>
    by_cases hc : c = '\n'
    · simp [splitParts, hc, ih]
    · cases h1 : (splitParts cs).1 with
      | nil =>
        cases h2 : (splitParts ((splitParts cs).2 ++ b)).1 with
        | nil =>
          simp [splitParts, hc, ih, h1, h2]
        | cons q qs =>
          simp [splitParts, hc, ih, h1, h2]
      | cons p ps =>
        simp [splitParts, hc, ih, h1]

/-- The buffering fold emits, after any chunk prefix, exactly the complete
parts of the concatenated text, keeping the trailing part as the buffer. -/
theorem feedChunk_foldl (chunks : List (List Char)) :
    ∀ (buf : List Char) (acc : List (List Char)), '\n' ∉ buf →
      chunks.foldl feedChunk (buf, acc)
        = ((splitParts (buf ++ chunks.flatten)).2,
           acc ++ (splitParts (buf ++ chunks.flatten)).1) := by
  induction chunks with
  | nil =>
    intro buf acc h
    simp [splitParts_of_no_nl buf h]
  | cons chunk rest ih =>
    intro buf acc h
    have hstep : feedChunk (buf, acc) chunk
        = ((splitParts (buf ++ chunk)).2,
           acc ++ (splitParts (buf ++ chunk)).1) := by
      simp [feedChunk, dropLast_splitNl, getLastD_splitNl, getLast?_getD_splitNl]
    rw [List.foldl_cons, hstep,
        ih _ _ (splitParts_snd_no_nl (buf ++ chunk))]
    rw [List.flatten_cons, ← List.append_assoc,
        splitParts_append (buf ++ chunk)]
    simp [List.append_assoc]

/-- The interleaved stream loop processes, after any chunk prefix, exactly
the complete parts of the concatenated text, in order. -/
theorem streamChunkStep_foldl (metadata0 : Option Json)
    (chunks : List (List Char)) :
    ∀ (buf : List Char) (s : CompState), '\n' ∉ buf →
      (chunks.foldl (streamChunkStep metadata0) (buf, s)).2
        = ((splitParts (buf ++ chunks.flatten)).1).foldl
            (processLine metadata0) s := by
  induction chunks with
  | nil =>
    intro buf s h
    simp [splitParts_of_no_nl buf h]
  | cons chunk rest ih =>
    intro buf s h
    have hstep : streamChunkStep metadata0 (buf, s) chunk
        = ((splitParts (buf ++ chunk)).2,
           ((splitParts (buf ++ chunk)).1).foldl (processLine metadata0) s) := by
      simp [streamChunkStep, dropLast_splitNl, getLastD_splitNl, getLast?_getD_splitNl]
    rw [List.foldl_cons, hstep,
        ih _ _ (splitParts_snd_no_nl (buf ++ chunk))]
    rw [List.flatten_cons, ← List.append_assoc,
        splitParts_append (buf ++ chunk)]
    simp [List.foldl_append]

theorem emittedLines_eq (chunks : List (List Char)) :
    emittedLines chunks = (splitNl chunks.flatten).dropLast := by
  unfold emittedLines
  rw [feedChunk_foldl chunks [] [] (by simp)]
  simp [dropLast_splitNl]

theorem processStream_eq_processLines (metadata0 : Option Json)
    (s : CompState) (chunks : List (List Char)) :
    processStream metadata0 s chunks
      = processLines metadata0 s (emittedLines chunks) := by
  unfold processStream processLines
  rw [streamChunkStep_foldl metadata0 chunks [] s (by simp),
      emittedLines_eq, dropLast_splitNl]
  simp

/-! ### Dispatch lemmas -/

/-- Since `data.type` is a single value, a record matches at most one
discriminator. -/
theorem hasType_unique (r : Json) (t t' : String)
    (h : hasType r t = true) (hne : t' ≠ t) : hasType r t' = false := by
  unfold hasType at h ⊢
  cases hj : jget r "type" with
  | none => simp [hj] at h
  | some v =>
    cases v with
    | str s =>
      rw [hj] at h
      have hs : s = t := by simpa using h
      subst hs
      simpa using fun hts => hne hts.symm
    | null => simp
    | bool b => simp
    | num q => simp
    | arr a => simp
    | obj o => simp

/-- After processing any record list, `allFrames` has gained exactly the
`frame_result` records in arrival order, and `currentFrame` is the last of
them (or is unchanged when none arrived). -/
theorem processRecords_frames (metadata0 : Option Json) (rs : List Json) :
    ∀ s : CompState,
      (processRecords metadata0 s rs).allFrames
          = s.allFrames ++ rs.filter (fun r => hasType r "frame_result") ∧
      (processRecords metadata0 s rs).currentFrame
          = match (rs.filter (fun r => hasType r "frame_result")).getLast? with
            | some r => some r
            | none => s.currentFrame := by
  induction rs with
  | nil => intro s; simp [processRecords]
  | cons r rest ih =>
    intro s
    show (processRecords metadata0 (processRecord metadata0 s r) rest).allFrames = _
      ∧ (processRecords metadata0 (processRecord metadata0 s r) rest).currentFrame = _
    by_cases h2 : hasType r "frame_result" = true
    · have h1 : hasType r "metadata" = false :=
        hasType_unique r "frame_result" "metadata" h2 (by decide)
      have hstep : (processRecord metadata0 s r).allFrames = s.allFrames ++ [r]
          ∧ (processRecord metadata0 s r).currentFrame = some r := by
        cases metadata0 <;> simp [processRecord, h1, h2]
      obtain ⟨ha, hc⟩ := ih (processRecord metadata0 s r)
      rw [hstep.1] at ha
      rw [hstep.2] at hc
      refine ⟨?_, ?_⟩
      · rw [ha, List.filter_cons, if_pos h2]
        simp
      · rw [hc, List.filter_cons, if_pos h2]
        cases hl : (rest.filter (fun r => hasType r "frame_result")).getLast? with
        | some x => simp [List.getLast?_cons, hl]
        | none => simp [List.getLast?_cons, hl]
    · have hstep : (processRecord metadata0 s r).allFrames = s.allFrames
          ∧ (processRecord metadata0 s r).currentFrame = s.currentFrame := by
        by_cases hm : hasType r "metadata" = true
        · simp [processRecord, hm]
        · by_cases hcp : hasType r "complete" = true
          · simp [processRecord, hm, h2, hcp]
          · by_cases he : jsTruthy (jget r "error") = true
            · simp [processRecord, hm, h2, hcp, he]
            · simp [processRecord, hm, h2, hcp, he]
      obtain ⟨ha, hc⟩ := ih (processRecord metadata0 s r)
      rw [hstep.1] at ha
      rw [hstep.2] at hc
      rw [List.filter_cons, if_neg (by simpa using h2)]
      exact ⟨ha, hc⟩

/-! ### Claim theorems for the streaming component -/

/-- C1.  For every streaming response whose newline-delimited JSON lines
arrive split across multiple network chunks, the stream-processing loop
keeps the trailing incomplete line in the buffer across reads: the
complete lines it hands to the parser are exactly the newline-terminated
parts of the concatenated byte stream, in order, each handed over exactly
once; in particular for chunk1 = `{"type":"meta` and
chunk2 = `data","fps":30}\n`, exactly one line is emitted and it parses as
one metadata record with `fps` 30, which the run stores as its metadata. -/
theorem stream_reassembles_split_lines :
    (∀ chunks : List (List Char),
        emittedLines chunks = (splitNl chunks.flatten).dropLast) ∧
    (∀ (metadata0 : Option Json) (s : CompState) (chunks : List (List Char)),
        processStream metadata0 s chunks
          = processLines metadata0 s (emittedLines chunks)) ∧
    emittedLines [exChunk1, exChunk2] = [exLine] ∧
    parseJsonFlat exLine
      = some [("type", JValue.str "metadata"), ("fps", JValue.num 30)] ∧
    (runStream initialCompState [exChunk1, exChunk2]).metadata
      = some [("type", JValue.str "metadata"), ("fps", JValue.num 30)] :=
  ⟨emittedLines_eq, processStream_eq_processLines, rfl, rfl, rfl⟩

/-- C2 (code bug).  The spec says a `frame_result` arriving after the run's
`metadata` record computes `progress = frame_number / frame_count * 100`,
but the `if (metadata)` guard reads the closure-captured `metadata` of the
render that created `startStreamingDetection`, not the value just stored
by `setMetadata`: on a fresh component the capture is `null`, so after
receiving `metadata` with `frame_count` 100 and then `frame_result` with
`frame_number` 10 the progress stays 0 instead of becoming 10.  The third
conjunct shows the arithmetic the spec expects is exactly what the branch
would compute had the capture held that metadata record. -/
theorem progress_uses_stale_metadata :
    (runRecords initialCompState [mdRec, frRec]).metadata = some mdRec ∧
    (runRecords initialCompState [mdRec, frRec]).progress = 0 ∧
    (processRecords (some mdRec) (startReset initialCompState) [frRec]).progress
      = 10 :=
  ⟨rfl, by decide, by
    have h : (processRecords (some mdRec) (startReset initialCompState)
        [frRec]).progress = (10 : ℚ) / 100 * 100 := rfl
    rw [h]
    norm_num⟩

/-- C3 (counterexample).  An `error` record does not stop the stream loop:
after `{"error":"boom"}` a following `frame_result` is still appended to
`allFrames` and becomes `currentFrame`, and a later error record
overwrites the displayed message. -/
theorem error_record_does_not_stop_stream :
    (runRecords initialCompState [errRec1, frRec]).allFrames = [frRec] ∧
    (runRecords initialCompState [errRec1, frRec]).currentFrame = some frRec ∧
    (runRecords initialCompState [errRec1, frRec]).error
      = some (JValue.str "boom") ∧
    (runRecords initialCompState [errRec1, errRec2]).error
      = some (JValue.str "late") :=
  ⟨rfl, rfl, rfl, rfl⟩

/-- C3 (amended).  A record whose `type` is unrecognised and whose `error`
field is truthy sets the displayed error to that field and clears the
processing flag, but the loop is not stopped: the rest of the stream is
processed from that updated state (so later records may further change the
displayed state, and the final error message is the last error record's
string). -/
theorem error_record_sets_error_and_continues (metadata0 : Option Json)
    (s : CompState) (pre post : List Json) (r : Json)
    (h : isErrorRecord r = true) :
    processRecords metadata0 s (pre ++ r :: post)
      = processRecords metadata0
          { processRecords metadata0 s pre with
              error := jget r "error", isProcessing := false } post := by
  have hstep : ∀ s' : CompState, processRecord metadata0 s' r
      = { s' with error := jget r "error", isProcessing := false } := by
    intro s'
    unfold isErrorRecord at h
    simp only [Bool.and_eq_true, Bool.not_eq_true'] at h
    obtain ⟨⟨⟨h1, h2⟩, h3⟩, h4⟩ := h
    simp [processRecord, h1, h2, h3, h4]
  unfold processRecords
  rw [List.foldl_append, List.foldl_cons, hstep]

/-- Witness for the amended C3 at a concrete stream: the error record
`{"error":"boom"}` updates the state and processing continues with the
remaining records. -/
theorem error_record_sets_error_and_continues_witness :
    isErrorRecord errRec1 = true ∧
    processRecords none (startReset initialCompState) [errRec1, frRec]
      = processRecords none
          { startReset initialCompState with
              error := jget errRec1 "error", isProcessing := false } [frRec] :=
  ⟨rfl, error_record_sets_error_and_continues none
    (startReset initialCompState) [] [frRec] errRec1 rfl⟩

/-- C4.  A line that fails to parse is skipped without aborting the
stream: processing a line sequence with a malformed line interleaved gives
exactly the state obtained with that line absent. -/
theorem malformed_line_is_skipped (metadata0 : Option Json) (s : CompState)
    (pre post : List (List Char)) (bad : List Char)
    (h : parseJsonFlat bad = none) :
    processLines metadata0 s (pre ++ bad :: post)
      = processLines metadata0 s (pre ++ post) := by
  have hstep : ∀ s' : CompState, processLine metadata0 s' bad = s' := by
    intro s'
    by_cases hb : isBlank bad = true
    · simp [processLine, hb]
    · simp [processLine, hb, h]
  unfold processLines
  rw [List.foldl_append, List.foldl_append, List.foldl_cons, hstep]

/-- The malformed line `{oops` of the C4 witness. -/
def badLine : List Char := "\x7boops".data

/-- Witness for C4: the malformed line `{oops` between valid lines changes
nothing. -/
theorem malformed_line_is_skipped_witness :
    parseJsonFlat badLine = none ∧
    processLines none initialCompState [exLine, badLine]
      = processLines none initialCompState [exLine] :=
  ⟨rfl, malformed_line_is_skipped none initialCompState [exLine] [] badLine rfl⟩

/-- C5.  Every `startStreamingDetection` run first clears the accumulated
state (`allFrames` empty, `currentFrame` cleared, progress 0, error
cleared, processing flag raised), and then each `frame_result` record is
appended to `allFrames` in arrival order and becomes `currentFrame`: after
any record prefix, `allFrames` is exactly the subsequence of
`frame_result` records received so far, in arrival order, and
`currentFrame` is the last of them. -/
theorem frames_accumulate_in_arrival_order (s : CompState) (rs : List Json) :
    (startReset s).allFrames = [] ∧
    (startReset s).currentFrame = none ∧
    (startReset s).progress = 0 ∧
    (startReset s).error = none ∧
    (startReset s).isProcessing = true ∧
    (runRecords s rs).allFrames
        = rs.filter (fun r => hasType r "frame_result") ∧
    (runRecords s rs).currentFrame
        = (rs.filter (fun r => hasType r "frame_result")).getLast? := by
  obtain ⟨ha, hc⟩ := processRecords_frames s.metadata rs (startReset s)
  refine ⟨rfl, rfl, rfl, rfl, rfl, ?_, ?_⟩
  · simpa [runRecords, startReset] using ha
  · show (processRecords s.metadata (startReset s) rs).currentFrame = _
    rw [hc]
    cases hl : (rs.filter (fun r => hasType r "frame_result")).getLast? with
    | some x => rfl
    | none => rfl

/-- C6.  Processing a record whose `type` is `"complete"` sets progress to
100 and clears the processing flag, leaving everything else unchanged. -/
theorem complete_record_ends_processing (metadata0 : Option Json)
    (s : CompState) (r : Json) (h : hasType r "complete" = true) :
    processRecord metadata0 s r
      = { s with isProcessing := false, progress := 100 } := by
  have h1 : hasType r "metadata" = false :=
    hasType_unique r "complete" "metadata" h (by decide)
  have h2 : hasType r "frame_result" = false :=
    hasType_unique r "complete" "frame_result" h (by decide)
  simp [processRecord, h1, h2, h]

/-- Witness for C6 at the concrete record `{"type":"complete"}`. -/
theorem complete_record_ends_processing_witness :
    hasType completeRec "complete" = true ∧
    processRecord none initialCompState completeRec
      = { initialCompState with isProcessing := false, progress := 100 } :=
  ⟨rfl, complete_record_ends_processing none initialCompState completeRec rfl⟩

/-- C9.  A record with a recognised `type` is handled exclusively by its
type branch even when it also carries a truthy `error` field: its error
state is untouched and (except for `complete`, whose own branch clears the
flag) its processing flag is untouched; the error branch runs exactly for
records with unrecognised `type` and truthy `error`, and a record with
neither is ignored. -/
theorem error_branch_only_for_unrecognized_type (metadata0 : Option Json)
    (s : CompState) (r : Json) :
    (recognizedType r = true →
        (processRecord metadata0 s r).error = s.error ∧
        (hasType r "complete" = false →
            (processRecord metadata0 s r).isProcessing = s.isProcessing)) ∧
    (recognizedType r = false → jsTruthy (jget r "error") = true →
        processRecord metadata0 s r
          = { s with error := jget r "error", isProcessing := false }) ∧
    (recognizedType r = false → jsTruthy (jget r "error") = false →
        processRecord metadata0 s r = s) := by
  refine ⟨?_, ?_, ?_⟩
  · intro h
    unfold recognizedType at h
    simp only [Bool.or_eq_true] at h
    rcases h with (hm | hf) | hc
    · simp [processRecord, hm]
    · have h1 : hasType r "metadata" = false :=
        hasType_unique r "frame_result" "metadata" hf (by decide)
      cases metadata0 <;> simp [processRecord, h1, hf]
    · have h1 : hasType r "metadata" = false :=
        hasType_unique r "complete" "metadata" hc (by decide)
      have h2 : hasType r "frame_result" = false :=
        hasType_unique r "complete" "frame_result" hc (by decide)
      refine ⟨by simp [processRecord, h1, h2, hc], ?_⟩
      intro hfalse
      rw [hc] at hfalse
      exact absurd hfalse (by simp)
  · intro h he
    unfold recognizedType at h
    simp only [Bool.or_eq_false_iff] at h
    simp [processRecord, h.1.1, h.1.2, h.2, he]
  · intro h he
    unfold recognizedType at h
    simp only [Bool.or_eq_false_iff] at h
    simp [processRecord, h.1.1, h.1.2, h.2, he]

/-- Witness for C9: a metadata record that also carries an error field
leaves the error state untouched, while a bare error record takes the
error branch. -/
theorem error_branch_only_for_unrecognized_type_witness :
    recognizedType [("type", JValue.str "metadata"),
        ("error", JValue.str "x")] = true ∧
    (processRecord none initialCompState
        [("type", JValue.str "metadata"), ("error", JValue.str "x")]).error
      = initialCompState.error ∧
    recognizedType errRec1 = false ∧
    jsTruthy (jget errRec1 "error") = true ∧
    processRecord none initialCompState errRec1
      = { initialCompState with
            error := jget errRec1 "error", isProcessing := false } :=
  ⟨rfl,
   ((error_branch_only_for_unrecognized_type none initialCompState
      [("type", JValue.str "metadata"), ("error", JValue.str "x")]).1 rfl).1,
   rfl, rfl,
   (error_branch_only_for_unrecognized_type none initialCompState
      errRec1).2.1 rfl rfl⟩

/-! ### Batch-detection normalisation (`processUploadedVideo`, part_002) -/

/-- The raw `bounding_box` of a detection from the batch endpoint; every
field may be absent. -/
structure RawBox where
  x : Option ℚ
  y : Option ℚ
  width : Option ℚ
  height : Option ℚ
deriving Repr

/-- A raw detection object from the batch-detection response
(`result.detections[i]`), with every field possibly absent. -/
structure RawDetection where
  id : Option String
  label : Option String
  confidence : Option ℚ
  bounding_box : Option RawBox
  severity : Option String
  timestamp : Option String
  frame_number : Option ℚ
  fps : Option ℚ
deriving Repr

/-- The normalised bounding box of a formatted detection. -/
structure BoundingBox where
  x : ℚ
  y : ℚ
  width : ℚ
  height : ℚ
deriving Repr, DecidableEq

/-- A normalised detection record as built in `processUploadedVideo`
(part_002 lines 217-231). -/
structure DetectionRecord where
  id : String
  label : String
  confidence : ℚ
  boundingBox : BoundingBox
  severity : String
  timestamp : String
  frame_number : Option ℚ
  fps : Option ℚ
deriving Repr

/-- JavaScript `v || d` for an optional string: absent or empty gives the
default. -/
def orStr (v : Option String) (d : String) : String :=
  match v with
  | some s => if s = "" then d else s
  | none => d

/-- JavaScript `v || d` for an optional number: absent or `0` gives the
default (`NaN`, the other falsy number, cannot come out of `JSON.parse`). -/
def orNum (v : Option ℚ) (d : ℚ) : ℚ :=
  match v with
  | some q => if q = 0 then d else q
  | none => d

/-- The per-detection normalisation of `processUploadedVideo`
(part_002 lines 217-231).  `freshId` stands for the
`Math.random().toString()` fallback and `nowIso` for
`new Date().toISOString()`, both supplied by the caller. -/
def formatDetection (freshId nowIso : String) (d : RawDetection) :
    DetectionRecord :=
  { id := orStr d.id freshId,
    label := orStr d.label "Unknown",
    confidence := orNum d.confidence 0,
    boundingBox :=
      { x := orNum (d.bounding_box.bind RawBox.x) 0,
        y := orNum (d.bounding_box.bind RawBox.y) 0,
        width := orNum (d.bounding_box.bind RawBox.width) 0,
        height := orNum (d.bounding_box.bind RawBox.height) 0 },
    severity := orStr d.severity "medium",
    timestamp := orStr d.timestamp nowIso,
    frame_number := d.frame_number,
    fps := d.fps }

/-- The mapping over `result.detections` in `processUploadedVideo`, with the id
fallback supplied per position. -/
def formatDetections (freshId : Nat → String) (nowIso : String)
    (ds : List RawDetection) : List DetectionRecord :=
  ds.enum.map fun p => formatDetection (freshId p.1) nowIso p.2

/-- A fully populated raw bounding box. -/
def bbFull : RawBox :=
  { x := some 1, y := some 2, width := some 3, height := some 4 }

/-- A raw detection whose string fields are present but empty. -/
def dEmptyLabel : RawDetection :=
  { id := some "d1", label := some "", confidence := some (1/2),
    bounding_box := some bbFull,
    severity := some "", timestamp := some "t0",
    frame_number := none, fps := none }

/-- C7 (counterexample).  "Fields that are present are copied through
unchanged" fails for present-but-empty strings: a detection whose `label`
and `severity` are present as `""` is normalised to `"Unknown"` and
`"medium"`, not copied. -/
theorem present_empty_label_replaced :
    dEmptyLabel.label = some "" ∧
    (formatDetection "fresh" "now" dEmptyLabel).label = "Unknown" ∧
    dEmptyLabel.severity = some "" ∧
    (formatDetection "fresh" "now" dEmptyLabel).severity = "medium" :=
  ⟨rfl, rfl, rfl, rfl⟩

theorem orNum_getD (v : Option ℚ) : orNum v 0 = v.getD 0 := by
  cases v with
  | none => rfl
  | some q =>
    by_cases h : q = 0
    · simp [orNum, h]
    · simp [orNum, h]

theorem orStr_some_of_ne (s d : String) (h : s ≠ "") : orStr (some s) d = s := by
  simp [orStr, h]

/-- C7 (amended).  For every raw detection, the normalisation defaults each
bounding-box field to 0 when `bounding_box` (or the sub-field) is absent,
`severity` to `"medium"` and `label` to `"Unknown"` when absent; fields
that are present with a truthy value are copied through unchanged (for the
numeric fields a present `0` coincides with the default, but a present
empty-string `label` or `severity` is replaced by its default rather than
copied, as the counterexample shows). -/
theorem format_detection_defaults (freshId nowIso : String)
    (d : RawDetection) :
    (d.bounding_box = none →
        (formatDetection freshId nowIso d).boundingBox
          = { x := 0, y := 0, width := 0, height := 0 }) ∧
    (∀ bb : RawBox, d.bounding_box = some bb →
        (formatDetection freshId nowIso d).boundingBox.x = bb.x.getD 0 ∧
        (formatDetection freshId nowIso d).boundingBox.y = bb.y.getD 0 ∧
        (formatDetection freshId nowIso d).boundingBox.width
          = bb.width.getD 0 ∧
        (formatDetection freshId nowIso d).boundingBox.height
          = bb.height.getD 0) ∧
    (d.severity = none →
        (formatDetection freshId nowIso d).severity = "medium") ∧
    (∀ sv : String, d.severity = some sv → sv ≠ "" →
        (formatDetection freshId nowIso d).severity = sv) ∧
    (d.label = none → (formatDetection freshId nowIso d).label = "Unknown") ∧
    (∀ l : String, d.label = some l → l ≠ "" →
        (formatDetection freshId nowIso d).label = l) ∧
    (∀ q : ℚ, d.confidence = some q →
        (formatDetection freshId nowIso d).confidence = q) ∧
    (formatDetection freshId nowIso d).frame_number = d.frame_number ∧
    (formatDetection freshId nowIso d).fps = d.fps := by
  refine ⟨?_, ?_, ?_, ?_, ?_, ?_, ?_, rfl, rfl⟩
  · intro h
    simp [formatDetection, h, orNum]
  · intro bb h
    simp [formatDetection, h, orNum_getD]
  · intro h
    simp [formatDetection, h, orStr]
  · intro sv h hne
    simp [formatDetection, h, orStr_some_of_ne sv "medium" hne]
  · intro h
    simp [formatDetection, h, orStr]
  · intro l h hne
    simp [formatDetection, h, orStr_some_of_ne l "Unknown" hne]
  · intro q h
    rw [show (formatDetection freshId nowIso d).confidence
          = orNum d.confidence 0 from rfl, h, orNum_getD]
    rfl

/-- A raw detection with no `bounding_box` and truthy string fields. -/
def dNoBox : RawDetection :=
  { id := some "d2", label := some "person", confidence := some (3/4),
    bounding_box := none, severity := some "high", timestamp := some "t1",
    frame_number := some 7, fps := some 30 }

/-- Witness for the amended C7: an absent box defaults to all zeros, a
present box field is copied (here `x = 1`), and present non-empty `label`
and `severity` are copied unchanged. -/
theorem format_detection_defaults_witness :
    (formatDetection "f" "n" dNoBox).boundingBox
        = { x := 0, y := 0, width := 0, height := 0 } ∧
    (formatDetection "f" "n" dNoBox).label = "person" ∧
    (formatDetection "f" "n" dNoBox).severity = "high" ∧
    (formatDetection "f" "n" dEmptyLabel).boundingBox.x = bbFull.x.getD 0 :=
  ⟨(format_detection_defaults "f" "n" dNoBox).1 rfl,
   (format_detection_defaults "f" "n" dNoBox).2.2.2.2.2.1 "person" rfl
     (by decide),
   (format_detection_defaults "f" "n" dNoBox).2.2.2.1 "high" rfl (by decide),
   ((format_detection_defaults "f" "n" dEmptyLabel).2.1 bbFull rfl).1⟩

/-! ### Alert panel (`AlertPanel.tsx`) -/

/-- Alert severity tiers (AlertPanel.tsx line 22). -/
inductive AlertSeverity where
  | critical : AlertSeverity
  | high : AlertSeverity
  | medium : AlertSeverity
  | low : AlertSeverity
deriving Repr, DecidableEq

/-- Alert lifecycle status (AlertPanel.tsx line 25). -/
inductive AlertStatus where
  | new : AlertStatus
  | acknowledged : AlertStatus
  | resolved : AlertStatus
deriving Repr, DecidableEq

/-- The `Alert` interface of AlertPanel.tsx (lines 17-27); the `Date`
timestamp is modelled as epoch milliseconds. -/
structure Alert where
  id : String
  title : String
  description : String
  timestamp : Int
  severity : AlertSeverity
  confidence : ℚ
  location : String
  status : AlertStatus
  type : String
deriving Repr, DecidableEq

/-- The Acknowledge button is rendered exactly for alerts with status
`"new"` (AlertPanel.tsx lines 189-198); clicking it calls
`onAcknowledge(alert.id)`. -/
def ackButtonShown (a : Alert) : Bool :=
  a.status == AlertStatus.new

/-- Modelled from the spec: the status update performed by the
`onAcknowledge` handler is not implemented in this repository — the prop
defaults to a no-op (AlertPanel.tsx line 38) and `home.tsx` renders
`AlertPanel` without a handler — so it is modelled from the spec's words:
status transitions `new → acknowledged → resolved` are local UI actions
(§3), and acknowledging an alert must transition it to `"acknowledged"`
without altering any other alert's status (§8.6).  The handler receives
the clicked alert's id and updates the alert carrying that id. -/
def acknowledgeAlert (alerts : List Alert) (alertId : String) : List Alert :=
  alerts.map fun a =>
    if a.id = alertId then { a with status := AlertStatus.acknowledged }
    else a

/-- C8.  For a list of alerts with distinct ids, acknowledging an alert
with status `"new"` (the only status for which the Acknowledge action is
offered) transitions exactly that alert to `"acknowledged"` and leaves
every other alert in the list entirely unchanged. -/
theorem acknowledge_transitions_only_target (l1 l2 : List Alert) (a : Alert)
    (hnodup : ((l1 ++ a :: l2).map Alert.id).Nodup)
    (hnew : a.status = AlertStatus.new) :
    ackButtonShown a = true ∧
    acknowledgeAlert (l1 ++ a :: l2) a.id
      = l1 ++ { a with status := AlertStatus.acknowledged } :: l2 := by
  rw [List.map_append, List.map_cons, List.nodup_append] at hnodup
  obtain ⟨hn1, hn2, hdisj⟩ := hnodup
  constructor
  · simp [ackButtonShown, hnew]
  · unfold acknowledgeAlert
    rw [List.map_append, List.map_cons, if_pos rfl]
    have h1 : (l1.map fun b =>
        if b.id = a.id then { b with status := AlertStatus.acknowledged }
        else b) = l1 := by
      have := List.map_congr_left (l := l1)
        (f := fun b =>
          if b.id = a.id then { b with status := AlertStatus.acknowledged }
          else b)
        (g := id) ?_
      · simpa using this
      · intro b hb
        have hne : ¬ b.id = a.id := fun hEq =>
          hdisj (List.mem_map_of_mem Alert.id hb)
            (by rw [← hEq]; exact List.mem_cons_self _ _)
        simp [hne]
    have h2 : (l2.map fun b =>
        if b.id = a.id then { b with status := AlertStatus.acknowledged }
        else b) = l2 := by
      have hnotmem : a.id ∉ l2.map Alert.id := (List.nodup_cons.mp hn2).1
      have := List.map_congr_left (l := l2)
        (f := fun b =>
          if b.id = a.id then { b with status := AlertStatus.acknowledged }
          else b)
        (g := id) ?_
      · simpa using this
      · intro b hb
        have hne : ¬ b.id = a.id := fun hEq =>
          hnotmem (hEq ▸ List.mem_map_of_mem Alert.id hb)
        simp [hne]
    rw [h1, h2]

/-- A concrete new alert, after the panel's mock data. -/
def alertA : Alert :=
  { id := "alert-1", title := "Fire Detected",
    description := "Potential wildfire detected in sector A-7.",
    timestamp := 0, severity := AlertSeverity.critical, confidence := 94,
    location := "Sector A-7, North Ridge", status := AlertStatus.new,
    type := "fire" }

/-- A concrete already-acknowledged alert. -/
def alertB : Alert :=
  { id := "alert-2", title := "Unauthorized Vehicle",
    description := "Unidentified vehicle detected in restricted area.",
    timestamp := 1, severity := AlertSeverity.high, confidence := 87,
    location := "Perimeter Zone B", status := AlertStatus.acknowledged,
    type := "intrusion" }

/-- Witness for C8 on a concrete two-alert list. -/
theorem acknowledge_transitions_only_target_witness :
    ackButtonShown alertA = true ∧
    acknowledgeAlert ([] ++ alertA :: [alertB]) alertA.id
      = [] ++ { alertA with status := AlertStatus.acknowledged } :: [alertB] :=
  acknowledge_transitions_only_target [] [alertB] alertA (by decide) rfl

/-! ### Upload flow (`VideoAnalysisPage.handleFileUpload`) -/

/-- The `useState` state of `VideoAnalysisPage` touched by the upload
handler (VideoAnalysisPage.tsx lines 6-9). -/
structure UploadState where
  videoId : String
  uploadedVideoId : String
  isUploading : Bool
  uploadError : Option String
deriving Repr, DecidableEq

/-- The `useState` initial values of `VideoAnalysisPage`. -/
def initialUploadState : UploadState :=
  { videoId := "", uploadedVideoId := "", isUploading := false,
    uploadError := none }

/-- Outcome of the `axios.post` upload call: a response whose body
carries `video_id` (the field's typed contract is a string; `none` models
an absent field or body), or a thrown network/HTTP error. -/
inductive UploadOutcome where
  | ok : Option String → UploadOutcome
  | netErr : UploadOutcome
deriving Repr, DecidableEq

/-- The error message for a response without `video_id`. -/
def noVideoIdMsg : String := "Upload successful but no video ID was returned"

/-- The error message for a thrown upload error. -/
def uploadFailedMsg : String := "Failed to upload video. Please try again."

/-- The handler `handleFileUpload` (VideoAnalysisPage.tsx lines 13-42):
without a
selected file the handler returns before touching any state; otherwise it
raises the uploading flag and clears the error, then on
`response.data && response.data.video_id` truthy stores the id in both
`uploadedVideoId` and `videoId`, on a falsy or absent id sets the
"no video ID" error, on a thrown error sets the "failed to upload" error,
and in the `finally` block always clears the uploading flag. -/
def handleFileUpload (s : UploadState) (hasFile : Bool)
    (outcome : UploadOutcome) : UploadState :=
  if hasFile = false then s
  else
    let s1 := { s with isUploading := true, uploadError := none }
    let s2 :=
      match outcome with
      | UploadOutcome.ok (some v) =>
        if v = "" then { s1 with uploadError := some noVideoIdMsg }
        else { s1 with uploadedVideoId := v, videoId := v }
      | UploadOutcome.ok none => { s1 with uploadError := some noVideoIdMsg }
      | UploadOutcome.netErr => { s1 with uploadError := some uploadFailedMsg }
    { s2 with isUploading := false }

theorem handleFileUpload_not_uploading (s : UploadState)
    (o : UploadOutcome) : (handleFileUpload s true o).isUploading = false := by
  cases o with
  | netErr => rfl
  | ok vid =>
    cases vid with
    | none => rfl
    | some v =>
      by_cases hv : v = ""
      · simp [handleFileUpload, hv]
      · simp [handleFileUpload, hv]

/-- C10.  When the upload request fails, or succeeds with a body lacking
`video_id`, the handler leaves `videoId` and `uploadedVideoId` unchanged
and sets a non-null `uploadError`; and for every outcome the handler
finishes with `isUploading` false. -/
theorem upload_failure_leaves_ids_and_clears_flag (s : UploadState)
    (outcome : UploadOutcome)
    (h : outcome = UploadOutcome.netErr ∨ outcome = UploadOutcome.ok none) :
    (handleFileUpload s true outcome).videoId = s.videoId ∧
    (handleFileUpload s true outcome).uploadedVideoId = s.uploadedVideoId ∧
    (handleFileUpload s true outcome).uploadError ≠ none ∧
    ∀ o : UploadOutcome, (handleFileUpload s true o).isUploading = false := by
  rcases h with h | h <;> subst h <;>
    exact ⟨rfl, rfl, by simp [handleFileUpload],
      fun o => handleFileUpload_not_uploading s o⟩

/-- Witness for C10: an upload response without `video_id` on the initial
page state. -/
theorem upload_failure_leaves_ids_and_clears_flag_witness :
    (handleFileUpload initialUploadState true (UploadOutcome.ok none)).videoId
        = initialUploadState.videoId ∧
    (handleFileUpload initialUploadState true
        (UploadOutcome.ok none)).uploadedVideoId
        = initialUploadState.uploadedVideoId ∧
    (handleFileUpload initialUploadState true
        (UploadOutcome.ok none)).uploadError ≠ none ∧
    (handleFileUpload initialUploadState true
        UploadOutcome.netErr).isUploading = false :=
  ⟨(upload_failure_leaves_ids_and_clears_flag initialUploadState
      (UploadOutcome.ok none) (Or.inr rfl)).1,
   (upload_failure_leaves_ids_and_clears_flag initialUploadState
      (UploadOutcome.ok none) (Or.inr rfl)).2.1,
   (upload_failure_leaves_ids_and_clears_flag initialUploadState
      (UploadOutcome.ok none) (Or.inr rfl)).2.2.1,
   (upload_failure_leaves_ids_and_clears_flag initialUploadState
      (UploadOutcome.ok none) (Or.inr rfl)).2.2.2 UploadOutcome.netErr⟩
